import Mathlib

/-!
Shallow embedding of `src/gh_wizard/pomodoro.py`: the `PomodoroSession`
timer state machine and the `BreakReminder` advisor.

Wall-clock instants are modelled as rationals (`ℚ`); every operation that
reads `datetime.now()` in Python takes the current instant `now : ℚ` as an
explicit argument.  Python's `int(x)` truncation toward zero is modelled by
`ratTrunc`.  The phase field is a `String`, exactly as in the Python code,
whose reachable values are `"work"`, `"short_break"` and `"long_break"`.
-/

set_option autoImplicit false

/-- Python `int(x)` applied to a real-valued duration: truncation toward
zero, i.e. floor for non-negative arguments and ceiling for negative ones. -/
def ratTrunc (q : ℚ) : ℤ :=
  if 0 ≤ q then ⌊q⌋ else ⌈q⌉

/-- State of `PomodoroSession` (`pomodoro.py`, `__init__`): the four
construction parameters and the mutable timer fields. -/
structure PomodoroSession where
  work_minutes : ℕ
  short_break_minutes : ℕ
  long_break_minutes : ℕ
  sessions_until_long_break : ℕ
  completed_sessions : ℕ
  is_running : Bool
  is_paused : Bool
  current_phase : String
  time_remaining : ℕ
  total_time : ℕ
  start_time : Option ℚ
  paused_time : Option ℚ
  pause_offset : ℚ
  deriving Repr, DecidableEq

/-- `PomodoroSession.__init__(work_minutes, short_break_minutes,
long_break_minutes, sessions_until_long_break)`. -/
def mkPomodoroSession (wm sbm lbm sulb : ℕ) : PomodoroSession :=
  { work_minutes := wm
    short_break_minutes := sbm
    long_break_minutes := lbm
    sessions_until_long_break := sulb
    completed_sessions := 0
    is_running := false
    is_paused := false
    current_phase := "work"
    time_remaining := wm * 60
    total_time := wm * 60
    start_time := none
    paused_time := none
    pause_offset := 0 }

namespace PomodoroSession

/-- `start()`: sets the running flags and stamps `start_time = now`.
Does not touch `pause_offset` or `paused_time`. -/
def start (now : ℚ) (s : PomodoroSession) : PomodoroSession :=
  { s with is_running := true, is_paused := false, start_time := some now }

/-- `pause()`: effective only when running and not paused; records the
instant the pause began. -/
def pause (now : ℚ) (s : PomodoroSession) : PomodoroSession :=
  if s.is_running && !s.is_paused then
    { s with is_paused := true, paused_time := some now }
  else s

/-- `resume()`: effective only when paused with a recorded pause instant;
adds the pause duration to `pause_offset` and clears the pause state. -/
def resume (now : ℚ) (s : PomodoroSession) : PomodoroSession :=
  match s.paused_time with
  | some pt =>
    if s.is_paused then
      { s with pause_offset := s.pause_offset + (now - pt)
               is_paused := false
               paused_time := none }
    else s
  | none => s

/-- `stop()`: clears the two flags and nothing else. -/
def stop (s : PomodoroSession) : PomodoroSession :=
  { s with is_running := false, is_paused := false }

/-- `get_elapsed_seconds()`: `max(0, int((now - start_time) - pause_offset))`,
and `0` when the session was never started. -/
def get_elapsed_seconds (now : ℚ) (s : PomodoroSession) : ℤ :=
  match s.start_time with
  | none => 0
  | some st => max 0 (ratTrunc ((now - st) - s.pause_offset))

/-- `get_remaining_seconds()`: `max(0, total_time - elapsed)`. -/
def get_remaining_seconds (now : ℚ) (s : PomodoroSession) : ℤ :=
  max 0 ((s.total_time : ℤ) - s.get_elapsed_seconds now)

/-- `get_progress_percentage()`: `0` when `total_time == 0`, otherwise
`min(100, (elapsed / total_time) * 100)`. -/
def get_progress_percentage (now : ℚ) (s : PomodoroSession) : ℚ :=
  if s.total_time = 0 then 0
  else min 100 (((s.get_elapsed_seconds now : ℚ) / (s.total_time : ℚ)) * 100)

/-- `is_phase_complete()`: `get_remaining_seconds() <= 0`. -/
def is_phase_complete (now : ℚ) (s : PomodoroSession) : Bool :=
  decide (s.get_remaining_seconds now ≤ 0)

/-- `next_phase()`: stop, transition `work -> (long_break | short_break)`
or `break -> work`, then restart the new phase at `now` with the pause
accumulator reset. -/
def next_phase (now : ℚ) (s : PomodoroSession) : PomodoroSession :=
  let s1 := s.stop
  let s2 :=
    if s1.current_phase = "work" then
      let cs := s1.completed_sessions + 1
      if cs % s1.sessions_until_long_break = 0 then
        { s1 with completed_sessions := cs
                  current_phase := "long_break"
                  total_time := s1.long_break_minutes * 60 }
      else
        { s1 with completed_sessions := cs
                  current_phase := "short_break"
                  total_time := s1.short_break_minutes * 60 }
    else
      { s1 with current_phase := "work"
                total_time := s1.work_minutes * 60 }
  { s2 with start_time := some now
            pause_offset := 0
            is_running := true
            is_paused := false }

end PomodoroSession

/-- The suggestion tables of `BreakReminder.__init__`, keyed by the
category string exactly as in the Python dict. -/
def suggestions (category : String) : List String :=
  if category = "short" then
    ["Stretch your arms and neck 🧘",
     "Look 20 feet away for 20 seconds 👀",
     "Take 3 deep breaths 🌬️",
     "Hydrate! Drink some water 💧",
     "Stand up and shake it out 💃"]
  else if category = "medium" then
    ["Walk around the room 🚶",
     "Do 10 jumping jacks 🏃",
     "Refill your water bottle 🚰",
     "Clear your desk clutter 🧹",
     "Check the weather outside 🌤️"]
  else if category = "long" then
    ["Go for a short walk outside 🌳",
     "Eat a healthy snack 🍎",
     "Do a quick meditation session 🧘‍♂️",
     "Call a friend or family member 📞",
     "Listen to your favorite song 🎵"]
  else []

/-- State of `BreakReminder` relevant to the advisor logic: the fixed
idle threshold (3600 seconds in `__init__`). -/
structure BreakReminder where
  idle_threshold : ℤ
  deriving Repr, DecidableEq

/-- `BreakReminder.__init__`: idle threshold is one hour. -/
def mkBreakReminder : BreakReminder :=
  { idle_threshold := 3600 }

/-- `BreakReminder.should_take_break(session)`: returns `False` when the
phase equals the literal string `"break"`, else `True` exactly when the
elapsed seconds exceed the idle threshold. -/
def BreakReminder.should_take_break (r : BreakReminder) (now : ℚ)
    (s : PomodoroSession) : Bool :=
  if s.current_phase = "break" then false
  else if r.idle_threshold < s.get_elapsed_seconds now then true
  else false

/-- `random.choice` modelled by an injected selector index (per the spec,
the randomness source is swappable for deterministic testing): element
`sel mod length` of the list, `""` on the empty list. -/
def choiceFn (sel : ℕ) (l : List String) : String :=
  l.getD (sel % l.length) ""

/-- The category bucketing inside `BreakReminder.get_break_suggestion`:
`session_count % 4 == 0` gives `"long"`, else `% 2 == 0` gives
`"medium"`, else `"short"`. -/
def suggestCategory (session_count : ℕ) : String :=
  if session_count % 4 = 0 then "long"
  else if session_count % 2 = 0 then "medium"
  else "short"

/-- `BreakReminder.get_break_suggestion(session_count)` with the random
choice replaced by the selector index `sel`: picks from the bucketed
table and prefixes the title-cased category label. -/
def get_break_suggestion (sel : ℕ) (session_count : ℕ) : String :=
  let category := suggestCategory session_count
  let suggestion := choiceFn sel (suggestions category)
  "(" ++ category.capitalize ++ " Break) " ++ suggestion

/-- The command alphabet of the timer: the five public mutating
operations of `PomodoroSession`. -/
inductive Cmd
  | start
  | pause
  | resume
  | stop
  | next_phase
  deriving Repr, DecidableEq

/-- One command applied at instant `t`. -/
def stepCmd (t : ℚ) (c : Cmd) (s : PomodoroSession) : PomodoroSession :=
  match c with
  | Cmd.start => s.start t
  | Cmd.pause => s.pause t
  | Cmd.resume => s.resume t
  | Cmd.stop => s.stop
  | Cmd.next_phase => s.next_phase t

/-- States reachable from `s0` by any sequence of timed commands. -/
inductive Reachable (s0 : PomodoroSession) : PomodoroSession → Prop
  | refl : Reachable s0 s0
  | step (t : ℚ) (c : Cmd) {s : PomodoroSession} :
      Reachable s0 s → Reachable s0 (stepCmd t c s)


/-! ### Helper lemmas -/

theorem ratTrunc_mono {a b : ℚ} (h : a ≤ b) : ratTrunc a ≤ ratTrunc b := by
  unfold ratTrunc
  by_cases ha : 0 ≤ a <;> by_cases hb : 0 ≤ b <;> simp only [ha, hb, if_pos, if_neg,
    if_true, if_false]
  · exact Int.floor_mono h
  · exact absurd (le_trans ha h) hb
  · have h1 : ⌈a⌉ ≤ (0 : ℤ) := Int.ceil_le.mpr (by exact_mod_cast le_of_not_le ha)
    exact le_trans h1 (Int.floor_nonneg.mpr hb)
  · exact Int.ceil_mono h

theorem ratTrunc_intCast (n : ℤ) : ratTrunc (n : ℚ) = n := by
  unfold ratTrunc
  by_cases h : (0 : ℚ) ≤ (n : ℚ) <;> simp only [h, if_pos, if_neg, if_true, if_false]
  · exact Int.floor_intCast n
  · exact Int.ceil_intCast n

theorem choiceFn_mem (sel : ℕ) (l : List String) (h : l ≠ []) : choiceFn sel l ∈ l := by
  unfold choiceFn
  have hl : 0 < l.length := List.length_pos.mpr h
  have hm : sel % l.length < l.length := Nat.mod_lt _ hl
  rw [List.getD_eq_getElem?_getD, List.getElem?_eq_getElem hm, Option.getD_some]
  exact List.getElem_mem hm

theorem get_elapsed_seconds_mono (s : PomodoroSession) {t1 t2 : ℚ} (h : t1 ≤ t2) :
    s.get_elapsed_seconds t1 ≤ s.get_elapsed_seconds t2 := by
  unfold PomodoroSession.get_elapsed_seconds
  cases s.start_time with
  | none => exact le_refl 0
  | some st => exact max_le_max (le_refl 0) (ratTrunc_mono (by linarith))

theorem next_phase_sulb (t : ℚ) (s : PomodoroSession) :
    (s.next_phase t).sessions_until_long_break = s.sessions_until_long_break := by
  unfold PomodoroSession.next_phase
  dsimp only
  split
  · split <;> rfl
  · rfl

theorem pause_sulb (t : ℚ) (s : PomodoroSession) :
    (s.pause t).sessions_until_long_break = s.sessions_until_long_break := by
  unfold PomodoroSession.pause
  split <;> rfl

theorem resume_sulb (t : ℚ) (s : PomodoroSession) :
    (s.resume t).sessions_until_long_break = s.sessions_until_long_break := by
  unfold PomodoroSession.resume
  split
  · split <;> rfl
  · rfl

theorem stepCmd_sulb (t : ℚ) (c : Cmd) (s : PomodoroSession) :
    (stepCmd t c s).sessions_until_long_break = s.sessions_until_long_break := by
  cases c with
  | start => rfl
  | pause => exact pause_sulb t s
  | resume => exact resume_sulb t s
  | stop => rfl
  | next_phase => exact next_phase_sulb t s

/-! ### Claim theorems -/

/-- C1: `advancePhase()` from Work increments `completedSessions` and enters
LongBreak exactly when the incremented count is divisible by
`sessionsUntilLongBreak` (else ShortBreak); from either break phase it
enters Work leaving `completedSessions` unchanged; and with
`sessionsUntilLongBreak = 4` seven consecutive calls from Work produce the
phase sequence ShortBreak, Work, ShortBreak, Work, ShortBreak, Work,
LongBreak. -/
theorem advancePhase_transition (s : PomodoroSession) (t : ℚ) :
    (s.current_phase = "work" →
      (s.next_phase t).completed_sessions = s.completed_sessions + 1 ∧
      ((s.completed_sessions + 1) % s.sessions_until_long_break = 0 →
        (s.next_phase t).current_phase = "long_break") ∧
      ((s.completed_sessions + 1) % s.sessions_until_long_break ≠ 0 →
        (s.next_phase t).current_phase = "short_break")) ∧
    (s.current_phase = "short_break" ∨ s.current_phase = "long_break" →
      (s.next_phase t).current_phase = "work" ∧
      (s.next_phase t).completed_sessions = s.completed_sessions) ∧
    (List.range 7).map
        (fun k => ((PomodoroSession.next_phase 0)^[k + 1]
          ((mkPomodoroSession 25 5 15 4).start 0)).current_phase)
      = ["short_break", "work", "short_break", "work", "short_break", "work",
         "long_break"] := by
  refine ⟨?_, ?_, by decide⟩
  · intro h
    refine ⟨?_, fun hm => ?_, fun hm => ?_⟩
    · by_cases hm : (s.completed_sessions + 1) % s.sessions_until_long_break = 0 <;>
        simp [PomodoroSession.next_phase, PomodoroSession.stop, h, hm]
    · simp [PomodoroSession.next_phase, PomodoroSession.stop, h, hm]
    · simp [PomodoroSession.next_phase, PomodoroSession.stop, h, hm]
  · intro h
    have hwork : ¬s.current_phase = "work" := by
      rcases h with h | h <;> simp [h]
    constructor <;> simp [PomodoroSession.next_phase, PomodoroSession.stop, hwork]

/-- C1 witness: the transition conclusions evaluated along a concrete run. -/
theorem advancePhase_transition_witness :
    ((mkPomodoroSession 25 5 15 4).next_phase 0).completed_sessions = 0 + 1 ∧
    ((mkPomodoroSession 25 5 15 4).next_phase 0).current_phase = "short_break" ∧
    (((mkPomodoroSession 25 5 15 4).next_phase 0).next_phase 0).current_phase
      = "work" :=
  ⟨((advancePhase_transition (mkPomodoroSession 25 5 15 4) 0).1 rfl).1,
   ((advancePhase_transition (mkPomodoroSession 25 5 15 4) 0).1 rfl).2.2 (by decide),
   ((advancePhase_transition ((mkPomodoroSession 25 5 15 4).next_phase 0) 0).2.1
      (Or.inl (by decide))).1⟩

/-- C2: pausing at `t` and resuming at `t + d` leaves `elapsedSeconds`
unchanged: the value read immediately after the resume equals the value
read immediately before the pause, for any prior pause accumulation. -/
theorem pause_resume_elapsed (s : PomodoroSession) (t d : ℚ)
    (hr : s.is_running = true) (hp : s.is_paused = false) (hd : 0 ≤ d) :
    ((s.pause t).resume (t + d)).get_elapsed_seconds (t + d)
      = s.get_elapsed_seconds t := by
  have hpause : s.pause t = { s with is_paused := true, paused_time := some t } := by
    simp [PomodoroSession.pause, hr, hp]
  have hres : ({ s with is_paused := true, paused_time := some t } :
        PomodoroSession).resume (t + d)
      = { s with is_paused := false, paused_time := none,
                 pause_offset := s.pause_offset + ((t + d) - t) } := by
    simp [PomodoroSession.resume]
  rw [hpause, hres]
  unfold PomodoroSession.get_elapsed_seconds
  dsimp only
  cases hst : s.start_time with
  | none => rfl
  | some st =>
    dsimp only
    have harg : t + d - st - (s.pause_offset + (t + d - t))
        = t - st - s.pause_offset := by ring
    rw [harg]

/-- C2 witness: a started session paused at 10 and resumed at 10 + 5. -/
theorem pause_resume_elapsed_witness :
    ((((mkPomodoroSession 25 5 15 4).start 0).pause 10).resume (10 + 5)).get_elapsed_seconds
        (10 + 5)
      = ((mkPomodoroSession 25 5 15 4).start 0).get_elapsed_seconds 10 :=
  pause_resume_elapsed ((mkPomodoroSession 25 5 15 4).start 0) 10 5 rfl rfl (by norm_num)

/-- C8: `stop()` clears `running` and `paused` and changes no other field. -/
theorem stop_frame (s : PomodoroSession) :
    s.stop.is_running = false ∧ s.stop.is_paused = false ∧
    s.stop.current_phase = s.current_phase ∧
    s.stop.completed_sessions = s.completed_sessions ∧
    s.stop.total_time = s.total_time ∧
    s.stop.time_remaining = s.time_remaining ∧
    s.stop.start_time = s.start_time ∧
    s.stop.paused_time = s.paused_time ∧
    s.stop.pause_offset = s.pause_offset ∧
    s.stop.work_minutes = s.work_minutes ∧
    s.stop.short_break_minutes = s.short_break_minutes ∧
    s.stop.long_break_minutes = s.long_break_minutes ∧
    s.stop.sessions_until_long_break = s.sessions_until_long_break :=
  ⟨rfl, rfl, rfl, rfl, rfl, rfl, rfl, rfl, rfl, rfl, rfl, rfl, rfl⟩

/-- C3 counterexample: a session started at 0 and paused at 100 is paused
over the whole interval [100, 200] with no intervening command, yet
`progressPercent()` read at 200 differs from the value read at 100: the
percentage is not frozen while paused. -/
theorem progress_not_frozen_cex :
    (((mkPomodoroSession 25 5 15 4).start 0).pause 100).is_paused = true ∧
    (((mkPomodoroSession 25 5 15 4).start 0).pause 100).get_progress_percentage 200
      ≠ (((mkPomodoroSession 25 5 15 4).start 0).pause 100).get_progress_percentage 100 := by
  constructor
  · rfl
  · simp [mkPomodoroSession, PomodoroSession.start, PomodoroSession.pause,
      PomodoroSession.get_progress_percentage, PomodoroSession.get_elapsed_seconds,
      ratTrunc]
    norm_num

/-- C3 amended: `progressPercent()` is monotonically non-decreasing in the
query time in every state — in particular while running and unpaused — but
it is not frozen while paused: during a pause it continues to advance with
wall-clock time and is only corrected retroactively when `resume()` adds
the pause duration to the accumulator. -/
theorem progress_monotone (s : PomodoroSession) (t1 t2 : ℚ) (h : t1 ≤ t2) :
    s.get_progress_percentage t1 ≤ s.get_progress_percentage t2 := by
  unfold PomodoroSession.get_progress_percentage
  split
  · exact le_refl 0
  · next htt =>
    have he : s.get_elapsed_seconds t1 ≤ s.get_elapsed_seconds t2 :=
      get_elapsed_seconds_mono s h
    have hT : (0 : ℚ) < (s.total_time : ℚ) := by
      exact_mod_cast Nat.pos_of_ne_zero htt
    have he' : (s.get_elapsed_seconds t1 : ℚ) ≤ (s.get_elapsed_seconds t2 : ℚ) := by
      exact_mod_cast he
    refine min_le_min (le_refl 100) ?_
    gcongr

/-- C3 witness: monotonicity applied at a started concrete session. -/
theorem progress_monotone_witness :
    ((mkPomodoroSession 25 5 15 4).start 0).get_progress_percentage 0
      ≤ ((mkPomodoroSession 25 5 15 4).start 0).get_progress_percentage 1 :=
  progress_monotone ((mkPomodoroSession 25 5 15 4).start 0) 0 1 (by norm_num)

/-- C4: evaluating `should_take_break` on a session in phase
`"short_break"` with 3601 elapsed seconds: the code returns `true`
although the phase is not Work, because its guard compares the phase to
the literal string `"break"`, a value `next_phase` never assigns. -/
theorem should_take_break_in_break_phase :
    (((mkPomodoroSession 25 5 15 4).start 0).next_phase 0).current_phase
      = "short_break" ∧
    (mkBreakReminder).should_take_break 3601
      (((mkPomodoroSession 25 5 15 4).start 0).next_phase 0) = true := by
  constructor
  · decide
  · simp [mkBreakReminder, mkPomodoroSession, PomodoroSession.start,
      PomodoroSession.next_phase, PomodoroSession.stop,
      BreakReminder.should_take_break, PomodoroSession.get_elapsed_seconds,
      ratTrunc]

/-- C5 counterexample: start at 0, pause at 1, then `stop()` at 2 reaches a
state (from the initial state, by public commands only) whose `paused` flag
is false while `pausedAtInstant` is still `some 1`: the claimed
iff-invariant fails. -/
theorem stale_paused_time_cex :
    Reachable (mkPomodoroSession 25 5 15 4)
      ((((mkPomodoroSession 25 5 15 4).start 0).pause 1).stop) ∧
    ((((mkPomodoroSession 25 5 15 4).start 0).pause 1).stop).is_paused = false ∧
    ((((mkPomodoroSession 25 5 15 4).start 0).pause 1).stop).paused_time = some 1 :=
  ⟨Reachable.step 2 Cmd.stop (Reachable.step 1 Cmd.pause
      (Reachable.step 0 Cmd.start Reachable.refl)),
   rfl, rfl⟩

/-- C5 amended: in every reachable state, `paused = true` implies
`pausedAtInstant` is set (`pause()` is the only operation that sets the
flag and it records the instant); the converse fails, because `stop()`,
`start()` and `advancePhase()` clear the flag without clearing the stale
`pausedAtInstant`. -/
theorem paused_imp_paused_time (wm sbm lbm sulb : ℕ) (s : PomodoroSession)
    (h : Reachable (mkPomodoroSession wm sbm lbm sulb) s) :
    s.is_paused = true → s.paused_time ≠ none := by
  induction h with
  | refl => intro hp; simp [mkPomodoroSession] at hp
  | step t c hr ih =>
    rename_i s'
    cases c with
    | start => intro hp; simp [stepCmd, PomodoroSession.start] at hp
    | pause =>
      simp only [stepCmd, PomodoroSession.pause]
      split
      · intro _; simp
      · exact ih
    | resume =>
      simp only [stepCmd, PomodoroSession.resume]
      split
      · split
        · intro hp; simp at hp
        · exact ih
      · exact ih
    | stop => intro hp; simp [stepCmd, PomodoroSession.stop] at hp
    | next_phase =>
      intro hp
      have hnp : (stepCmd t Cmd.next_phase s').is_paused = false := rfl
      rw [hnp] at hp
      simp at hp

/-- C5 witness: the amended invariant applied at a concrete reachable
paused state. -/
theorem paused_imp_paused_time_witness :
    (((mkPomodoroSession 25 5 15 4).start 0).pause 1).paused_time ≠ none :=
  paused_imp_paused_time 25 5 15 4 _
    (Reachable.step 1 Cmd.pause (Reachable.step 0 Cmd.start Reachable.refl)) rfl

/-- C6: in every state reachable from the initial state by the five public
commands, `paused = true` implies `running = true`: `pause()` only sets the
flag when already running, and every operation that clears `running` also
clears `paused`. -/
theorem paused_imp_running (wm sbm lbm sulb : ℕ) (s : PomodoroSession)
    (h : Reachable (mkPomodoroSession wm sbm lbm sulb) s) :
    s.is_paused = true → s.is_running = true := by
  induction h with
  | refl => intro hp; simp [mkPomodoroSession] at hp
  | step t c hr ih =>
    rename_i s'
    cases c with
    | start => intro _; rfl
    | pause =>
      simp only [stepCmd, PomodoroSession.pause]
      split
      · next hcond =>
        intro _
        exact ((Bool.and_eq_true _ _).mp hcond).1
      · exact ih
    | resume =>
      simp only [stepCmd, PomodoroSession.resume]
      split
      · split
        · intro hp; simp at hp
        · exact ih
      · exact ih
    | stop => intro hp; simp [stepCmd, PomodoroSession.stop] at hp
    | next_phase => intro _; rfl

/-- C6 witness: the invariant applied at a concrete reachable paused
state. -/
theorem paused_imp_running_witness :
    (((mkPomodoroSession 25 5 15 4).start 0).pause 1).is_running = true :=
  paused_imp_running 25 5 15 4 _
    (Reachable.step 1 Cmd.pause (Reachable.step 0 Cmd.start Reachable.refl)) rfl

/-- C7: for every session count and every selector, the break suggestion
is an element of the bucketed category table, prefixed with the
title-cased category label, and the bucket is `"long"` when
`n % 4 = 0`, `"medium"` when `n % 4 ≠ 0` and `n % 2 = 0`, and `"short"`
otherwise. -/
theorem break_suggestion_spec (sel n : ℕ) :
    (∃ s ∈ suggestions (suggestCategory n),
        get_break_suggestion sel n
          = "(" ++ (suggestCategory n).capitalize ++ " Break) " ++ s) ∧
    (n % 4 = 0 → suggestCategory n = "long") ∧
    (n % 4 ≠ 0 → n % 2 = 0 → suggestCategory n = "medium") ∧
    (n % 4 ≠ 0 → n % 2 ≠ 0 → suggestCategory n = "short") := by
  have hne : ∀ c : String, c = "long" ∨ c = "medium" ∨ c = "short" →
      suggestions c ≠ [] := by
    rintro c (rfl | rfl | rfl) <;> decide
  refine ⟨⟨choiceFn sel (suggestions (suggestCategory n)), ?_, rfl⟩, ?_, ?_, ?_⟩
  · apply choiceFn_mem
    apply hne
    unfold suggestCategory
    by_cases h4 : n % 4 = 0 <;> by_cases h2 : n % 2 = 0 <;> simp [h4, h2]
  · intro h4; simp [suggestCategory, h4]
  · intro h4 h2; simp [suggestCategory, h4, h2]
  · intro h4 h2; simp [suggestCategory, h4, h2]

/-- C7 witness: suggestion(4) is a long-category string; the buckets of
2, 1 and 3 are medium, short and short. -/
theorem break_suggestion_spec_witness :
    (∃ s ∈ suggestions (suggestCategory 4),
        get_break_suggestion 0 4
          = "(" ++ (suggestCategory 4).capitalize ++ " Break) " ++ s) ∧
    suggestCategory 4 = "long" ∧ suggestCategory 2 = "medium" ∧
    suggestCategory 1 = "short" ∧ suggestCategory 3 = "short" :=
  ⟨(break_suggestion_spec 0 4).1,
   (break_suggestion_spec 0 4).2.1 rfl,
   (break_suggestion_spec 0 2).2.2.1 (by decide) rfl,
   (break_suggestion_spec 0 1).2.2.2 (by decide) (by decide),
   (break_suggestion_spec 0 3).2.2.2 (by decide) (by decide)⟩

/-- C9: the operations are total over the embedding; in particular
`progressPercent` is 0 (not a division by zero) whenever
`totalPhaseDuration = 0`, and the modulus used by `advancePhase` equals
the positive construction parameter in every reachable state, so the
modulo operation never divides by zero. -/
theorem timer_operations_safe :
    (∀ (s : PomodoroSession) (now : ℚ), s.total_time = 0 →
        s.get_progress_percentage now = 0) ∧
    (∀ (wm sbm lbm sulb : ℕ) (s : PomodoroSession), 0 < sulb →
        Reachable (mkPomodoroSession wm sbm lbm sulb) s →
        0 < s.sessions_until_long_break) := by
  constructor
  · intro s now h
    simp [PomodoroSession.get_progress_percentage, h]
  · intro wm sbm lbm sulb s hpos h
    have hsulb : s.sessions_until_long_break = sulb := by
      induction h with
      | refl => rfl
      | step t c hr ih => rw [stepCmd_sulb]; exact ih
    rw [hsulb]; exact hpos

/-- C9 witness: a zero-duration session reports 0 percent, and the cycle
length of the freshly constructed session is positive. -/
theorem timer_operations_safe_witness :
    (mkPomodoroSession 0 5 15 4).get_progress_percentage 7 = 0 ∧
    0 < (mkPomodoroSession 25 5 15 4).sessions_until_long_break :=
  ⟨timer_operations_safe.1 (mkPomodoroSession 0 5 15 4) 7 rfl,
   timer_operations_safe.2 25 5 15 4 (mkPomodoroSession 25 5 15 4) (by norm_num)
     Reachable.refl⟩

/-- C10: `start()` does not reset the pause accumulator: after `stop()`
then `start()` at `t0` with accumulated pause time `p > 0`, the elapsed
seconds read at `t0 + t` equal `max(0, t - p)` — the restarted phase reads
0 elapsed for the first `p` seconds of wall-clock time. -/
theorem start_does_not_reset_pause_offset (s : PomodoroSession) (t0 : ℚ)
    (t p : ℤ) (hoff : s.pause_offset = (p : ℚ)) (hp : 0 < p) :
    ((s.stop).start t0).pause_offset = s.pause_offset ∧
    ((s.stop).start t0).get_elapsed_seconds (t0 + (t : ℚ)) = max 0 (t - p) := by
  refine ⟨rfl, ?_⟩
  show max 0 (ratTrunc ((t0 + (t : ℚ)) - t0 - s.pause_offset)) = max 0 (t - p)
  rw [hoff]
  have harg : (t0 + (t : ℚ)) - t0 - (p : ℚ) = ((t - p : ℤ) : ℚ) := by
    push_cast
    ring
  rw [harg, ratTrunc_intCast]

/-- C10 witness: a session that accumulated 2 seconds of pause, stopped and
restarted at 10, reads `max 0 (1 - 2) = 0` elapsed seconds at 10 + 1. -/
theorem start_does_not_reset_pause_offset_witness :
    ((((((mkPomodoroSession 25 5 15 4).start 0).pause 3).resume 5).stop).start 10).get_elapsed_seconds
        (10 + ((1 : ℤ) : ℚ)) = max 0 (1 - 2) :=
  (start_does_not_reset_pause_offset
      ((((mkPomodoroSession 25 5 15 4).start 0).pause 3).resume 5) 10 1 2
      (by norm_num [mkPomodoroSession, PomodoroSession.start, PomodoroSession.pause,
        PomodoroSession.resume])
      (by norm_num)).2
